import Mathlib

/-!
Shallow embedding of the Pebblo retrieval enforcement core of the
daxa-ai/langchain repository:

* `libs/langchain/langchain/chains/pebblo_retrieval/base.py`
  (`PebbloRetrievalQA` and its filter-installation methods), and
* `libs/community/langchain_community/chains/pebblo_retrieval/utilities.py`
  (`PebbloRetrievalAPIWrapper`: policy fetch, policy cache, identity policy).

Python dicts are modelled as association lists (assignment keeps the position
of an existing key and appends a fresh key, as CPython dicts do for the
operations used here); exceptions are modelled with `Except`; the in-place
mutation of `retriever.search_kwargs` is modelled by returning the new bag
together with the outcome, so that a raised error still exposes the state the
mutation left behind.
-/

deriving instance DecidableEq for Except

namespace PebbloSpec

/-- Python exception kinds raised by the embedded code. -/
inductive Err where
  | valueError (msg : String)
  | typeError (msg : String)
  | notImplementedError (msg : String)
  deriving Repr, DecidableEq

/-! ## Data model

`langchain_community.chains.pebblo_retrieval.models` is not under `src/`.
The record shapes below are modelled from the spec (§3) and from every use the
`src/` code makes of them. -/

/-- Modelled from the spec: `AuthContext` = {user_id, authorized_identities}
(§3); `models.py` is not under `src/`; field uses match `base.py` and
`utilities.py`. -/
structure AuthContext where
  user_id : String
  authorized_identities : List String
  deriving Repr, DecidableEq

/-- Modelled from the spec: the `{deny: [...]}` sub-object of a semantic
context field, as read by `base.py` (`....pebblo_semantic_topics.deny`). -/
structure DenyList where
  deny : List String
  deriving Repr, DecidableEq

/-- Modelled from the spec: `SemanticContext` with two optional fields, as
constructed by `_generate_semantic_context` (either field may be missing,
hence optional with default `None`) and read by `base.py`. -/
structure SemanticContext where
  pebblo_semantic_topics : Option DenyList
  pebblo_semantic_entities : Option DenyList
  deriving Repr, DecidableEq

/-- Keys of `semantic_context.dict()` in
`_apply_pinecone_semantic_filter`.  Pydantic v1 `.dict()` lists every
declared field of the model, including fields whose value is `None`, so the
key list does not depend on the field values. -/
def SemanticContext.dictKeys (_ : SemanticContext) : List String :=
  ["pebblo_semantic_topics", "pebblo_semantic_entities"]

/-- Modelled from the spec: one entry of `policy.identity.superuser`
(`{name}`), per §3 and `enforce_identity_policy`. -/
structure Superuser where
  name : String
  deriving Repr, DecidableEq

/-- Modelled from the spec: the `identity` part of a policy, a list of
superusers (`policy.identity.superuser` in `enforce_identity_policy`). -/
structure IdentityPolicy where
  superuser : List Superuser
  deriving Repr, DecidableEq

/-- Modelled from the spec: the `{deny, deny_groups}` shape shared by
`policy.entity` and `policy.semantics` (§3,
`_generate_semantic_context`). -/
structure DenyPolicy where
  deny : List String
  deny_groups : List String
  deriving Repr, DecidableEq

/-- Modelled from the spec: `PolicyConfig` (§3).  `entity` and `semantics`
are optional (guarded by `if policy.entity:` / `if policy.semantics:` in
`_generate_semantic_context`). -/
structure PolicyConfig where
  identity : IdentityPolicy
  entity : Option DenyPolicy
  semantics : Option DenyPolicy
  deriving Repr, DecidableEq

/-! ## Flat (Pinecone) filters -/

/-- A value of one entry of a Pinecone flat filter dict. -/
inductive PineconeClause where
  /-- Clause `{"$in": vals}` — membership-any-of. -/
  | inClause (vals : List String)
  /-- Clause `{"$nin": vals}` — exclusion. -/
  | ninClause (vals : List String)
  /-- any caller-supplied condition the enforcement code never inspects. -/
  | other (tag : String)
  deriving Repr, DecidableEq

/-- A Pinecone filter: a dict from field name to clause, as an association
list (CPython dict order: update in place, fresh keys appended). -/
abbrev PineconeFilter := List (String × PineconeClause)

/-- Membership `k in d` for a Python dict. -/
def dictMem (d : List (String × PineconeClause)) (k : String) : Bool :=
  d.any (fun p => p.1 = k)

/-- Lookup `d[k]` for a Python dict (`none` when the key is missing). -/
def dictGet (d : List (String × PineconeClause)) (k : String) :
    Option PineconeClause :=
  (d.find? (fun p => p.1 = k)).map (fun p => p.2)

/-- Assignment `d[k] = v` for a Python dict: overwrite in place, or append a fresh key. -/
def dictSet (d : List (String × PineconeClause)) (k : String)
    (v : PineconeClause) : List (String × PineconeClause) :=
  if dictMem d k then
    d.map (fun p => if p.1 = k then (k, v) else p)
  else
    d ++ [(k, v)]

/-- The `search_kwargs` bag of a Pinecone-backed retriever; the enforcement
code only ever touches its optional `"filter"` entry. -/
structure PineconeSearchKwargs where
  filter : Option PineconeFilter
  deriving Repr, DecidableEq

/-- Embeds `PebbloRetrievalQA._apply_pinecone_authorization_filter`
(`base.py` lines 121–135).  First the conflict check on
`search_kwargs["filter"]`, then (only when `auth_context` is present)
`search_kwargs.setdefault("filter", {})["authorized_identities"] =
{"$in": auth_context.authorized_identities}`. -/
def applyPineconeAuthorizationFilter (auth_context : Option AuthContext)
    (search_kwargs : PineconeSearchKwargs) :
    Except Err PineconeSearchKwargs :=
  if (match search_kwargs.filter with
      | some f => dictMem f "authorized_identities"
      | none => false) then
    .error (.valueError
      "authorized_identities already exists in search_kwargs filter")
  else
    match auth_context with
    | none => .ok search_kwargs
    | some ac =>
        .ok ⟨some (dictSet (search_kwargs.filter.getD [])
          "authorized_identities" (.inClause ac.authorized_identities))⟩

/-- Embeds `PebbloRetrievalQA._apply_pinecone_semantic_filter`
(`base.py` lines 137–163).  The outer guard is
`if "filter" in search_kwargs and self.semantic_context is not None:`;
the two "already exists" checks test
`"pebblo_semantic_topics" in semantic_context` (resp. entities), i.e.
membership in `semantic_context.dict()` itself — NOT in
`search_kwargs["filter"]` — and `semantic_context.dict()` always holds both
keys, so the first check fires whenever the guard is entered; the
`setdefault` lines that would add the `$nin` clauses are unreachable. -/
def applyPineconeSemanticFilter (semantic_context : Option SemanticContext)
    (search_kwargs : PineconeSearchKwargs) :
    Except Err PineconeSearchKwargs :=
  match search_kwargs.filter, semantic_context with
  | some _, some sc =>
      if "pebblo_semantic_topics" ∈ sc.dictKeys then
        .error (.valueError
          "semantic_context pebblo_semantic_topics already exists in search_kwargs filter")
      else if "pebblo_semantic_entities" ∈ sc.dictKeys then
        .error (.valueError
          "semantic_context pebblo_semantic_entities already exists in search_kwargs filter")
      else
        .ok ⟨some (dictSet
          (dictSet (search_kwargs.filter.getD []) "pebblo_semantic_topics"
            (.ninClause ((sc.pebblo_semantic_topics.map DenyList.deny).getD [])))
          "pebblo_semantic_entities"
            (.ninClause ((sc.pebblo_semantic_entities.map DenyList.deny).getD [])))⟩
  | _, _ => .ok search_kwargs

/-! ## Boolean-tree (Qdrant) filters -/

/-- A `qdrant_client.http.models.FieldCondition` with a `MatchAny` match. -/
structure FieldCondition where
  key : String
  matchAny : List String
  deriving Repr, DecidableEq

/-- One entry of a Qdrant `must` / `must_not` list.  The source guards every
key inspection with `hasattr(condition, "key")`, so conditions without a
`key` attribute (e.g. nested filters) are a separate constructor. -/
inductive QdrantCondition where
  | field (fc : FieldCondition)
  | keyless (tag : String)
  deriving Repr, DecidableEq

/-- A `rest.Filter`: optional `must` and `must_not` condition lists
(`None` by default; Python truthiness treats `None` and `[]` alike). -/
structure QdrantFilter where
  must : Option (List QdrantCondition)
  must_not : Option (List QdrantCondition)
  deriving Repr, DecidableEq

/-- Python truthiness of an optional list (`if existing_filter.must:`). -/
def listTruthy {α : Type} (o : Option (List α)) : Bool :=
  match o with
  | some (_ :: _) => true
  | _ => false

/-- The value of `search_kwargs["filter"]` for a Qdrant retriever: either a
`rest.Filter` or (deprecated, rejected with `TypeError`) a plain dict. -/
inductive QdrantFilterValue where
  | filter (f : QdrantFilter)
  | dictFilter
  deriving Repr, DecidableEq

/-- The `search_kwargs` bag of a Qdrant-backed retriever. -/
structure QdrantSearchKwargs where
  filter : Option QdrantFilterValue
  deriving Repr, DecidableEq

/-- Does a condition carry `key == "metadata.authorized_identities"`
(the loop body of `_apply_qdrant_authorization_filter`)? -/
def isAuthIdentitiesCondition (c : QdrantCondition) : Bool :=
  match c with
  | .field fc => fc.key = "metadata.authorized_identities"
  | .keyless _ => false

/-- Does a condition carry one of the two semantic keys
(the loop body of `_apply_qdrant_semantic_filter`)? -/
def isSemanticCondition (c : QdrantCondition) : Bool :=
  match c with
  | .field fc =>
      fc.key = "metadata.pebblo_semantic_topics" ∨
      fc.key = "metadata.pebblo_semantic_entities"
  | .keyless _ => false

/-- The identity enforcement condition built by
`_apply_qdrant_authorization_filter`. -/
def identityEnforcementFilter (ac : AuthContext) : QdrantCondition :=
  .field ⟨"metadata.authorized_identities", ac.authorized_identities⟩

/-- Embeds `PebbloRetrievalQA._apply_qdrant_authorization_filter`
(`base.py` lines 165–215).  Returns immediately when `auth_context` is
`None`; otherwise appends the identity condition to `must` (creating the
filter or the `must` list as needed), raising when a
`metadata.authorized_identities` condition is already in `must`, or when the
existing filter is a plain dict. -/
def applyQdrantAuthorizationFilter (auth_context : Option AuthContext)
    (search_kwargs : QdrantSearchKwargs) :
    Except Err QdrantSearchKwargs :=
  match auth_context with
  | none => .ok search_kwargs
  | some ac =>
    let cond := identityEnforcementFilter ac
    match search_kwargs.filter with
    | some (.filter existing_filter) =>
        if listTruthy existing_filter.must then
          if (existing_filter.must.getD []).any isAuthIdentitiesCondition then
            .error (.valueError "Filter for authorized_identities already exists")
          else
            .ok ⟨some (.filter { existing_filter with
              must := some ((existing_filter.must.getD []) ++ [cond]) })⟩
        else
          .ok ⟨some (.filter { existing_filter with must := some [cond] })⟩
    | some .dictFilter =>
        .error (.typeError "Using dict as a `filter` is deprecated.")
    | none =>
        .ok ⟨some (.filter { must := some [cond], must_not := none })⟩

/-- The `semantic_filters` list built by `_apply_qdrant_semantic_filter`:
one `MatchAny` condition per present (hence truthy) semantic field. -/
def qdrantSemanticFilters (semantic_context : Option SemanticContext) :
    List QdrantCondition :=
  (match semantic_context with
   | some sc =>
       match sc.pebblo_semantic_topics with
       | some t => [.field ⟨"metadata.pebblo_semantic_topics", t.deny⟩]
       | none => []
   | none => []) ++
  (match semantic_context with
   | some sc =>
       match sc.pebblo_semantic_entities with
       | some e => [.field ⟨"metadata.pebblo_semantic_entities", e.deny⟩]
       | none => []
   | none => [])

/-- Embeds `PebbloRetrievalQA._apply_qdrant_semantic_filter`
(`base.py` lines 217–286).  Builds `semantic_filters`, then extends the
`must_not` branch (creating the filter or the `must_not` list as needed),
raising when a semantic-keyed condition is already in `must_not`, or when
the existing filter is a plain dict. -/
def applyQdrantSemanticFilter (semantic_context : Option SemanticContext)
    (search_kwargs : QdrantSearchKwargs) :
    Except Err QdrantSearchKwargs :=
  let semantic_filters := qdrantSemanticFilters semantic_context
  match search_kwargs.filter with
  | some (.filter existing_filter) =>
      if listTruthy existing_filter.must_not then
        if (existing_filter.must_not.getD []).any isSemanticCondition then
          .error (.valueError "Filter for a semantic key already exists")
        else
          .ok ⟨some (.filter { existing_filter with
            must_not := some ((existing_filter.must_not.getD []) ++ semantic_filters) })⟩
      else
        .ok ⟨some (.filter { existing_filter with must_not := some semantic_filters })⟩
  | some .dictFilter =>
      .error (.typeError "Using dict as a `filter` is deprecated.")
  | none =>
      .ok ⟨some (.filter { must := none, must_not := some semantic_filters })⟩

/-- The `must` conditions reachable in a Qdrant search-kwargs bag. -/
def qdrantMust (kw : QdrantSearchKwargs) : List QdrantCondition :=
  match kw.filter with
  | some (.filter f) => f.must.getD []
  | _ => []

/-- The `must_not` conditions reachable in a Qdrant search-kwargs bag. -/
def qdrantMustNot (kw : QdrantSearchKwargs) : List QdrantCondition :=
  match kw.filter with
  | some (.filter f) => f.must_not.getD []
  | _ => []

/-! ## Orchestration (`PebbloRetrievalQA._get_docs`, `_aget_docs`,
`validate_vectorstore`) -/

/-- The runtime class of `retriever.vectorstore`, as inspected by
`validate_vectorstore` and the two `set_*_enforcement_filter` dispatchers.
`SUPPORTED_VECTORSTORES = [Pinecone, Qdrant]`. -/
inductive VectorstoreKind where
  | pinecone
  | qdrant
  | otherKind (className : String)
  deriving Repr, DecidableEq

/-- The names interpolated into the `validate_vectorstore` error message
(`SUPPORTED_VECTORSTORES` in `base.py`). -/
def supportedVectorstoreNames : List String := ["Pinecone", "Qdrant"]

/-- The data the `ValueError` raised by `validate_vectorstore` carries: the
f-string interpolates the supported set and the offending class name. -/
structure UnsupportedVectorstoreError where
  supported : List String
  got : String
  deriving Repr, DecidableEq

/-- Embeds `PebbloRetrievalQA.validate_vectorstore` (`base.py` lines 43–59): a
pydantic validator on the `retriever` field, run at construction; raises
unless the vectorstore is an instance of one of `SUPPORTED_VECTORSTORES`. -/
def validate_vectorstore (kind : VectorstoreKind) :
    Except UnsupportedVectorstoreError VectorstoreKind :=
  match kind with
  | .pinecone => .ok .pinecone
  | .qdrant => .ok .qdrant
  | .otherKind n => .error ⟨supportedVectorstoreNames, n⟩

/-- The search-kwargs bag of a retriever of either supported kind. -/
inductive SearchKwargs where
  | pinecone (kw : PineconeSearchKwargs)
  | qdrant (kw : QdrantSearchKwargs)
  deriving Repr, DecidableEq

/-- A constructed `PebbloRetrievalQA` chain: the validated retriever kind and
its mutable search-kwargs bag, plus the two per-chain contexts. -/
structure PebbloRetrievalQA where
  search_kwargs : SearchKwargs
  auth_context : Option AuthContext
  semantic_context : Option SemanticContext
  deriving Repr, DecidableEq

/-- Chain construction: the `validate_vectorstore` validator runs on the
`retriever` field (before any filter work — the search-kwargs bag is stored
untouched, and no network call is involved in `base.py` construction). -/
def constructPebbloRetrievalQA (kind : VectorstoreKind) (kw : SearchKwargs)
    (auth_context : Option AuthContext)
    (semantic_context : Option SemanticContext) :
    Except UnsupportedVectorstoreError PebbloRetrievalQA :=
  match validate_vectorstore kind with
  | .error e => .error e
  | .ok _ => .ok ⟨kw, auth_context, semantic_context⟩

/-- Embeds `set_identity_enforcement_filter` (`base.py` lines 83–100), dispatching
on the vectorstore class.  The `search_kwargs` bag is mutated in place in
Python; here the (possibly partially) updated bag is returned even on
error. -/
def setIdentityEnforcementFilter (auth_context : Option AuthContext)
    (kw : SearchKwargs) : Except Err SearchKwargs :=
  match kw with
  | .pinecone p => (applyPineconeAuthorizationFilter auth_context p).map .pinecone
  | .qdrant q => (applyQdrantAuthorizationFilter auth_context q).map .qdrant

/-- Embeds `set_semantic_enforcement_filter` (`base.py` lines 102–119). -/
def setSemanticEnforcementFilter (semantic_context : Option SemanticContext)
    (kw : SearchKwargs) : Except Err SearchKwargs :=
  match kw with
  | .pinecone p => (applyPineconeSemanticFilter semantic_context p).map .pinecone
  | .qdrant q => (applyQdrantSemanticFilter semantic_context q).map .qdrant

/-- Embeds `PebbloRetrievalQA._get_docs` enforcement prefix (`base.py` lines
61–72): install the identity filter, then the semantic filter, both by
in-place mutation of `retriever.search_kwargs`.  The result pairs the state
the bag of the retriever is left in with the raised error, if any: a raise in
the second step does NOT undo the mutation from the first step. -/
def getDocsEnforcement (auth_context : Option AuthContext)
    (semantic_context : Option SemanticContext) (kw : SearchKwargs) :
    SearchKwargs × Option Err :=
  match setIdentityEnforcementFilter auth_context kw with
  | .error e => (kw, some e)
  | .ok kw1 =>
      match setSemanticEnforcementFilter semantic_context kw1 with
      | .error e => (kw1, some e)
      | .ok kw2 => (kw2, none)

/-- Embeds `PebbloRetrievalQA._aget_docs` (`base.py` lines 74–81): the body is a
single `raise NotImplementedError(...)`; nothing is mutated, no search is
issued. -/
def agetDocs (kw : SearchKwargs) (_question : String) :
    SearchKwargs × (Except Err (List String)) :=
  (kw, .error (.notImplementedError "PebbloRetrievalQA does not support async"))

/-! ## Policy fetch, cache and identity policy
(`langchain_community/chains/pebblo_retrieval/utilities.py`) -/

/-- Embeds `get_entities_from_groups` (`utilities.py` lines 484–499): each group
name is temporarily returned as the entity itself. -/
def get_entities_from_groups (entity_groups : List String) : List String :=
  entity_groups.foldl (fun acc g => acc ++ [g]) []

/-- Embeds `get_topics_from_groups` (`utilities.py` lines 501–516). -/
def get_topics_from_groups (topic_groups : List String) : List String :=
  topic_groups.foldl (fun acc g => acc ++ [g]) []

/-- Embeds `PebbloRetrievalAPIWrapper._generate_semantic_context`
(`utilities.py` lines 468–482): group-derived names extended with the
explicit deny lists, one optional field per present policy section. -/
def generate_semantic_context (policy : PolicyConfig) : SemanticContext :=
  { pebblo_semantic_entities :=
      match policy.entity with
      | some e => some ⟨get_entities_from_groups e.deny_groups ++ e.deny⟩
      | none => none,
    pebblo_semantic_topics :=
      match policy.semantics with
      | some s => some ⟨get_topics_from_groups s.deny_groups ++ s.deny⟩
      | none => none }

/-- The `policy_cache` field: `Tuple[Optional[PolicyConfig],
Optional[SemanticContext]]`, initially `(None, None)`. -/
abbrev PolicyCacheEntry := Option PolicyConfig × Option SemanticContext

/-- Filename `policy-<app_name>.json` (`utilities.py` line 450). -/
def policyFileName (app_name : String) : String :=
  "policy-" ++ app_name ++ ".json"

/-- The observable content of one file: `none` when `os.path.exists` is
false; `some (.error e)` when the file exists but `json.load` /
`PolicyConfig(**...)` raises; `some (.ok p)` when it parses. -/
abbrev FileContent := Option (Except String PolicyConfig)

/-- A file system, as the policy-file reader sees it. -/
abbrev FileSystem := String → FileContent

/-- Embeds `PebbloRetrievalAPIWrapper.get_policy_from_file`
(`utilities.py` lines 437–457): missing file is logged and `None` returned;
an existing file is read with `json.load` and fed to `PolicyConfig(**...)`,
whose exceptions propagate to the caller. -/
def get_policy_from_file (app_name : String) (fs : FileSystem) :
    Except String (Option PolicyConfig) :=
  match fs (policyFileName app_name) with
  | none => .ok none
  | some (.error e) => .error e
  | some (.ok p) => .ok (some p)

/-- An HTTP response as `get_policy_from_api` sees it: the status code and
the outcome of `response.json()` + `PolicyConfig(**policy)` on the body. -/
structure HttpResponse where
  status_code : Nat
  body : Except String PolicyConfig

/-- Embeds `PebbloRetrievalAPIWrapper.make_request` (`utilities.py` lines 541–589):
every network or request exception is caught and logged, yielding `None`;
otherwise the response is returned whatever its status. -/
def make_request (network : Option HttpResponse) : Option HttpResponse :=
  network

/-- Embeds `PebbloRetrievalAPIWrapper.get_policy_from_api`
(`utilities.py` lines 415–435): a `None` response or a non-200 status is
logged and `None` returned; a 200 body is parsed into `PolicyConfig`, whose
exceptions propagate. -/
def get_policy_from_api (network : Option HttpResponse) :
    Except String (Option PolicyConfig) :=
  match make_request network with
  | some response =>
      if response.status_code = 200 then
        match response.body with
        | .ok p => .ok (some p)
        | .error e => .error e
      else
        .ok none
  | none => .ok none

/-- The outcome of one refresh fetch of one cycle, as seen by the loop body of the refresh thread:
the fetch returned a policy, returned `None`, or raised. -/
inductive FetchOutcome where
  | ok (policy : PolicyConfig)
  | absent
  | raised (e : String)
  deriving Repr, DecidableEq

/-- Embeds `PebbloRetrievalAPIWrapper._update_local_policy_cache`
(`utilities.py` lines 459–466): derive the semantic context from the policy
when present, and replace the cache pair wholesale (a single tuple
assignment). -/
def update_local_policy_cache (policy : Option PolicyConfig) :
    PolicyCacheEntry :=
  match policy with
  | some p => (some p, some (generate_semantic_context p))
  | none => (none, none)

/-- One iteration of `PebbloRetrievalAPIWrapper._fetch_policy`
(`utilities.py` lines 397–413): exceptions from the fetch are caught at the
iteration boundary, leaving the cache unchanged; a fetch that returns (a
policy or `None`) always reaches `_update_local_policy_cache`. -/
def fetchPolicyCycle (cache : PolicyCacheEntry) (outcome : FetchOutcome) :
    PolicyCacheEntry :=
  match outcome with
  | .ok p => update_local_policy_cache (some p)
  | .absent => update_local_policy_cache none
  | .raised _ => cache

/-- The refresh loop run over a finite list of cycle outcomes, from a given
cache state. -/
def runFetchCycles (cache : PolicyCacheEntry) (outcomes : List FetchOutcome) :
    PolicyCacheEntry :=
  outcomes.foldl fetchPolicyCycle cache

/-- Names of the cached superusers: `superusers = policy.identity.superuser
if policy else []` followed by the comprehension
`[superuser.name for superuser in superusers]` in
`enforce_identity_policy`. -/
def cachedSuperuserNames (policy_cache : PolicyCacheEntry) : List String :=
  (match policy_cache.1 with
   | some policy => policy.identity.superuser
   | none => []).map Superuser.name

/-- Embeds `PebbloRetrievalAPIWrapper.enforce_identity_policy`
(`utilities.py` lines 364–390): absent auth context passes through as
`None`; the auth context of a superuser is replaced by `None` (identity
enforcement disabled); anyone else keeps their auth context. -/
def enforce_identity_policy (policy_cache : PolicyCacheEntry)
    (auth_context : Option AuthContext) : Option AuthContext :=
  match auth_context with
  | none => none
  | some ac =>
      if ac.user_id ∈ cachedSuperuserNames policy_cache then
        none
      else
        some ac

/-- A cache pair is consistent when both halves come from one and the same
fetch: both empty, or a policy together with the semantic context derived
from exactly that policy. -/
def cacheConsistent (c : PolicyCacheEntry) : Prop :=
  c = (none, none) ∨ ∃ p, c = (some p, some (generate_semantic_context p))

/-! ## Helper lemmas -/

theorem dictSet_of_not_mem (d : List (String × PineconeClause)) (k : String)
    (v : PineconeClause) (h : dictMem d k = false) :
    dictSet d k v = d ++ [(k, v)] := by
  simp [dictSet, h]

theorem dictMem_dictSet_self (d : List (String × PineconeClause)) (k : String)
    (v : PineconeClause) : dictMem (dictSet d k v) k = true := by
  unfold dictSet
  by_cases h : dictMem d k = true
  · rw [if_pos h]
    unfold dictMem at h ⊢
    rw [List.any_eq_true] at h ⊢
    obtain ⟨p, hp, hk⟩ := h
    refine ⟨(k, v), List.mem_map.mpr ⟨p, hp, ?_⟩, by simp⟩
    simp [of_decide_eq_true hk]
  · rw [if_neg h]
    unfold dictMem
    rw [List.any_eq_true]
    exact ⟨(k, v), by simp, by simp⟩

theorem getD_nil_of_not_listTruthy {α : Type} (o : Option (List α))
    (h : listTruthy o = false) : o.getD [] = [] := by
  cases o with
  | none => rfl
  | some l =>
      cases l with
      | nil => rfl
      | cons a t => simp [listTruthy] at h

theorem listTruthy_concat {α : Type} (l : List α) (c : α) :
    listTruthy (some (l ++ [c])) = true := by
  cases l <;> rfl

/-! ## Claim theorems -/

/-- C8: for a retriever whose vectorstore kind is outside the supported set,
construction fails at validation time with an error carrying the supported
set and the offending class name, before any filter work (the search-kwargs
bag is not touched); construction with a supported kind succeeds and stores
the bag unchanged. -/
theorem construction_validates_vectorstore :
    (∀ n : String, validate_vectorstore (.otherKind n) =
        .error ⟨supportedVectorstoreNames, n⟩) ∧
    (∀ (n : String) (kw : SearchKwargs) (ac : Option AuthContext)
        (sc : Option SemanticContext),
        constructPebbloRetrievalQA (.otherKind n) kw ac sc =
          .error ⟨supportedVectorstoreNames, n⟩) ∧
    (∀ (kw : SearchKwargs) (ac : Option AuthContext)
        (sc : Option SemanticContext),
        constructPebbloRetrievalQA .pinecone kw ac sc = .ok ⟨kw, ac, sc⟩) ∧
    (∀ (kw : SearchKwargs) (ac : Option AuthContext)
        (sc : Option SemanticContext),
        constructPebbloRetrievalQA .qdrant kw ac sc = .ok ⟨kw, ac, sc⟩) ∧
    supportedVectorstoreNames = ["Pinecone", "Qdrant"] :=
  ⟨fun _ => rfl, fun _ _ _ _ => rfl, fun _ _ _ => rfl, fun _ _ _ => rfl, rfl⟩

/-- C9: the asynchronous document-retrieval path raises
`NotImplementedError` for every question and every search-kwargs state,
leaving the search options untouched. -/
theorem aget_docs_raises_not_implemented :
    ∀ (kw : SearchKwargs) (q : String),
      agetDocs kw q = (kw, .error (.notImplementedError
        "PebbloRetrievalQA does not support async")) :=
  fun _ _ => rfl

/-- C10: `enforce_identity_policy` disables identity enforcement (returns
`none`) exactly for a present auth context whose `user_id` is the name of a
cached superuser; any other present auth context passes through unchanged
(in particular when no policy is cached), and an absent one stays absent. -/
theorem enforce_identity_policy_superuser_bypass :
    (∀ cache : PolicyCacheEntry, enforce_identity_policy cache none = none) ∧
    (∀ (cache : PolicyCacheEntry) (ac : AuthContext),
        ac.user_id ∈ cachedSuperuserNames cache →
        enforce_identity_policy cache (some ac) = none) ∧
    (∀ (cache : PolicyCacheEntry) (ac : AuthContext),
        ac.user_id ∉ cachedSuperuserNames cache →
        enforce_identity_policy cache (some ac) = some ac) ∧
    (∀ (sc : Option SemanticContext) (ac : AuthContext),
        enforce_identity_policy (none, sc) (some ac) = some ac) := by
  refine ⟨fun _ => rfl, ?_, ?_, ?_⟩
  · intro cache ac h
    simp [enforce_identity_policy, h]
  · intro cache ac h
    simp [enforce_identity_policy, h]
  · intro sc ac
    simp [enforce_identity_policy, cachedSuperuserNames]

/-- Witness for the superuser-bypass theorem: a cached policy whose only
superuser is named "admin" disables enforcement for user "admin" and keeps
it for user "bob". -/
theorem enforce_identity_policy_superuser_bypass_witness :
    ("admin" ∈ cachedSuperuserNames
        (some ⟨⟨[⟨"admin"⟩]⟩, none, none⟩, none)) ∧
    enforce_identity_policy (some ⟨⟨[⟨"admin"⟩]⟩, none, none⟩, none)
        (some ⟨"admin", ["grp"]⟩) = none ∧
    ("bob" ∉ cachedSuperuserNames
        (some ⟨⟨[⟨"admin"⟩]⟩, none, none⟩, none)) ∧
    enforce_identity_policy (some ⟨⟨[⟨"admin"⟩]⟩, none, none⟩, none)
        (some ⟨"bob", ["grp"]⟩) = some ⟨"bob", ["grp"]⟩ :=
  ⟨by decide,
   enforce_identity_policy_superuser_bypass.2.1 _ ⟨"admin", ["grp"]⟩ (by decide),
   by decide,
   enforce_identity_policy_superuser_bypass.2.2.1 _ ⟨"bob", ["grp"]⟩ (by decide)⟩

/-- C3 (code bug): the Pinecone semantic conflict check tests key membership
in `semantic_context.dict()` instead of in `search_kwargs["filter"]`, so
with a present semantic context and a pre-existing filter that has NO clause
on either semantic field the call still raises the "already exists"
`ValueError` — the claimed "raises if and only if the filter has a semantic
clause" fails in the only-if direction. -/
theorem pinecone_semantic_conflict_check_misfires :
    applyPineconeSemanticFilter
        (some ⟨some ⟨["politics"]⟩, some ⟨["us-ssn"]⟩⟩)
        ⟨some [("author", PineconeClause.other "john")]⟩ =
      .error (.valueError
        "semantic_context pebblo_semantic_topics already exists in search_kwargs filter") ∧
    dictMem [("author", PineconeClause.other "john")]
        "pebblo_semantic_topics" = false ∧
    dictMem [("author", PineconeClause.other "john")]
        "pebblo_semantic_entities" = false := by
  decide

/-- C4 (code bug): with a present semantic context and no pre-existing
filter the Pinecone semantic step adds no clause at all (its outer guard
requires `"filter" in search_kwargs`), while the Qdrant step on the same
context installs the two exclusion conditions the claim describes. -/
theorem pinecone_semantic_filter_adds_nothing_without_filter :
    applyPineconeSemanticFilter
        (some ⟨some ⟨["politics"]⟩, some ⟨["us-ssn"]⟩⟩) ⟨none⟩ = .ok ⟨none⟩ ∧
    applyQdrantSemanticFilter
        (some ⟨some ⟨["politics"]⟩, some ⟨["us-ssn"]⟩⟩) ⟨none⟩ =
      .ok ⟨some (.filter ⟨none, some
        [.field ⟨"metadata.pebblo_semantic_topics", ["politics"]⟩,
         .field ⟨"metadata.pebblo_semantic_entities", ["us-ssn"]⟩]⟩)⟩ := by
  decide

/-- C1: on both supported backends, with no conflicting pre-existing
identity clause, an absent auth context adds no identity clause at all; a
present one adds exactly one clause — the flat `$in` entry on
`authorized_identities` for Pinecone, one `must` condition with match-any on
`metadata.authorized_identities` for Qdrant — appended after the
pre-existing conditions, which are all left unchanged (Qdrant `must_not`
included). -/
theorem identity_enforcement_adds_one_clause :
    (∀ kw : PineconeSearchKwargs,
        dictMem (kw.filter.getD []) "authorized_identities" = false →
        applyPineconeAuthorizationFilter none kw = .ok kw) ∧
    (∀ (ac : AuthContext) (kw : PineconeSearchKwargs),
        dictMem (kw.filter.getD []) "authorized_identities" = false →
        applyPineconeAuthorizationFilter (some ac) kw =
          .ok ⟨some (kw.filter.getD [] ++
            [("authorized_identities",
              PineconeClause.inClause ac.authorized_identities)])⟩) ∧
    (∀ kw : QdrantSearchKwargs,
        applyQdrantAuthorizationFilter none kw = .ok kw) ∧
    (∀ (ac : AuthContext) (kw : QdrantSearchKwargs),
        kw.filter ≠ some QdrantFilterValue.dictFilter →
        (qdrantMust kw).any isAuthIdentitiesCondition = false →
        ∃ kw1, applyQdrantAuthorizationFilter (some ac) kw = .ok kw1 ∧
          qdrantMust kw1 = qdrantMust kw ++ [identityEnforcementFilter ac] ∧
          qdrantMustNot kw1 = qdrantMustNot kw) := by
  refine ⟨?_, ?_, fun _ => rfl, ?_⟩
  · rintro ⟨fo⟩ h
    cases fo with
    | none => rfl
    | some f =>
        simp only [Option.getD] at h
        simp [applyPineconeAuthorizationFilter, h]
  · rintro ac ⟨fo⟩ h
    cases fo with
    | none =>
        simp only [applyPineconeAuthorizationFilter]
        rfl
    | some f =>
        simp only [Option.getD] at h
        simp [applyPineconeAuthorizationFilter, h, dictSet_of_not_mem _ _ _ h]
  · rintro ac ⟨fo⟩ hdict hany
    cases fo with
    | none =>
        refine ⟨⟨some (.filter ⟨some [identityEnforcementFilter ac], none⟩)⟩,
          rfl, ?_, ?_⟩ <;> simp [qdrantMust, qdrantMustNot]
    | some fv =>
        cases fv with
        | dictFilter => exact absurd rfl hdict
        | filter f =>
            simp only [qdrantMust] at hany
            by_cases ht : listTruthy f.must = true
            · refine ⟨⟨some (.filter { f with
                  must := some (f.must.getD [] ++ [identityEnforcementFilter ac]) })⟩,
                ?_, ?_, ?_⟩
              · simp [applyQdrantAuthorizationFilter, ht, hany]
              · simp [qdrantMust]
              · simp [qdrantMustNot]
            · rw [Bool.not_eq_true] at ht
              refine ⟨⟨some (.filter { f with
                  must := some [identityEnforcementFilter ac] })⟩, ?_, ?_, ?_⟩
              · simp [applyQdrantAuthorizationFilter, ht]
              · simp [qdrantMust, getD_nil_of_not_listTruthy _ ht]
              · simp [qdrantMustNot]

/-- Witness for the identity-enforcement theorem: a Pinecone bag with one
unrelated clause gains exactly the `$in` clause, and an empty Qdrant bag
gains exactly the one `must` condition. -/
theorem identity_enforcement_adds_one_clause_witness :
    (dictMem [("author", PineconeClause.other "j")] "authorized_identities"
      = false) ∧
    applyPineconeAuthorizationFilter (some ⟨"u1", ["Finance"]⟩)
        ⟨some [("author", PineconeClause.other "j")]⟩ =
      .ok ⟨some ([("author", PineconeClause.other "j")] ++
        [("authorized_identities", PineconeClause.inClause ["Finance"])])⟩ ∧
    (∃ kw1, applyQdrantAuthorizationFilter (some ⟨"u1", ["Finance"]⟩) ⟨none⟩ =
        .ok kw1 ∧
      qdrantMust kw1 = qdrantMust ⟨none⟩ ++
        [identityEnforcementFilter ⟨"u1", ["Finance"]⟩] ∧
      qdrantMustNot kw1 = qdrantMustNot ⟨none⟩) :=
  ⟨by decide,
   identity_enforcement_adds_one_clause.2.1 ⟨"u1", ["Finance"]⟩
     ⟨some [("author", PineconeClause.other "j")]⟩ (by decide),
   identity_enforcement_adds_one_clause.2.2.2 ⟨"u1", ["Finance"]⟩ ⟨none⟩
     (by decide) (by decide)⟩

theorem cacheConsistent_runFetchCycles (outcomes : List FetchOutcome) :
    ∀ c : PolicyCacheEntry, cacheConsistent c →
      cacheConsistent (runFetchCycles c outcomes) := by
  induction outcomes with
  | nil => exact fun c h => h
  | cons o os ih =>
      intro c h
      apply ih
      cases o with
      | ok p => exact Or.inr ⟨p, rfl⟩
      | absent => exact Or.inl rfl
      | raised e => exact h

/-- C2 counterexample: starting from the pair produced by a successful fetch
of a policy denying entity "e1", a cycle whose fetch returns absent does NOT
leave the pair as it was after the last successful fetch — it resets the
cache to `(none, none)`. -/
theorem policy_cache_absent_fetch_counterexample :
    fetchPolicyCycle
        (some ⟨⟨[]⟩, some ⟨["e1"], []⟩, none⟩,
         some (generate_semantic_context ⟨⟨[]⟩, some ⟨["e1"], []⟩, none⟩))
        .absent ≠
      (some ⟨⟨[]⟩, some ⟨["e1"], []⟩, none⟩,
       some (generate_semantic_context ⟨⟨[]⟩, some ⟨["e1"], []⟩, none⟩)) := by
  decide

/-- C2 (amended): a cycle whose fetch raises leaves the cache pair
unchanged; a cycle whose fetch returns absent resets the pair to
`(none, none)`; and after any sequence of cycles the pair is atomic — both
halves always come from one and the same fetch result, never one half
updated and the other stale. -/
theorem policy_cache_refresh_semantics :
    (∀ (cache : PolicyCacheEntry) (e : String),
        fetchPolicyCycle cache (.raised e) = cache) ∧
    (∀ cache : PolicyCacheEntry,
        fetchPolicyCycle cache .absent = (none, none)) ∧
    (∀ outcomes : List FetchOutcome,
        cacheConsistent (runFetchCycles (none, none) outcomes)) :=
  ⟨fun _ _ => rfl, fun _ => rfl,
   fun outcomes => cacheConsistent_runFetchCycles outcomes _ (Or.inl rfl)⟩

/-- C5 counterexample: Pinecone binding, empty search kwargs, present auth
and semantic contexts.  The identity step installs its clause, the semantic
step then raises, and the raised error leaves the identity clause installed
in the search options — enforcement is not all-or-nothing. -/
theorem enforcement_leftover_clause_counterexample :
    (getDocsEnforcement (some ⟨"u1", ["Finance"]⟩)
        (some ⟨some ⟨["politics"]⟩, some ⟨["us-ssn"]⟩⟩)
        (.pinecone ⟨none⟩)).2.isSome = true ∧
    (getDocsEnforcement (some ⟨"u1", ["Finance"]⟩)
        (some ⟨some ⟨["politics"]⟩, some ⟨["us-ssn"]⟩⟩)
        (.pinecone ⟨none⟩)).1 =
      .pinecone ⟨some [("authorized_identities",
        PineconeClause.inClause ["Finance"])]⟩ := by
  decide

/-- C5 (amended): when filter compilation raises, the query aborts with that
error, but the enforcement step is sequential, not all-or-nothing: if the
identity step succeeded and the semantic step raised, the search options are
left exactly in the state the identity step produced, its clause still
installed. -/
theorem enforcement_error_keeps_prior_clauses
    (ac : Option AuthContext) (sc : Option SemanticContext)
    (kw kw1 : SearchKwargs) (e : Err)
    (h1 : setIdentityEnforcementFilter ac kw = .ok kw1)
    (h2 : setSemanticEnforcementFilter sc kw1 = .error e) :
    getDocsEnforcement ac sc kw = (kw1, some e) := by
  simp [getDocsEnforcement, h1, h2]

/-- Witness for the abort-keeps-prior-clauses theorem at the counterexample
inputs. -/
theorem enforcement_error_keeps_prior_clauses_witness :
    setIdentityEnforcementFilter (some ⟨"u1", ["Finance"]⟩) (.pinecone ⟨none⟩)
      = .ok (.pinecone ⟨some [("authorized_identities",
          PineconeClause.inClause ["Finance"])]⟩) ∧
    setSemanticEnforcementFilter (some ⟨some ⟨["politics"]⟩, some ⟨["us-ssn"]⟩⟩)
        (.pinecone ⟨some [("authorized_identities",
          PineconeClause.inClause ["Finance"])]⟩) =
      .error (.valueError
        "semantic_context pebblo_semantic_topics already exists in search_kwargs filter") ∧
    getDocsEnforcement (some ⟨"u1", ["Finance"]⟩)
        (some ⟨some ⟨["politics"]⟩, some ⟨["us-ssn"]⟩⟩) (.pinecone ⟨none⟩) =
      (.pinecone ⟨some [("authorized_identities",
          PineconeClause.inClause ["Finance"])]⟩,
       some (.valueError
        "semantic_context pebblo_semantic_topics already exists in search_kwargs filter")) :=
  ⟨by decide, by decide,
   enforcement_error_keeps_prior_clauses _ _ _ _ _ (by decide) (by decide)⟩

theorem qdrant_second_application_raises (ac : AuthContext)
    (f : QdrantFilter) (l : List QdrantCondition)
    (hm : f.must = some (l ++ [identityEnforcementFilter ac])) :
    ∃ e, applyQdrantAuthorizationFilter (some ac) ⟨some (.filter f)⟩ =
      .error e := by
  refine ⟨.valueError "Filter for authorized_identities already exists", ?_⟩
  simp only [applyQdrantAuthorizationFilter, hm, listTruthy_concat, if_true]
  have hany : (l ++ [identityEnforcementFilter ac]).any
      isAuthIdentitiesCondition = true := by
    simp [List.any_append, isAuthIdentitiesCondition, identityEnforcementFilter]
  simp [hany]

/-- C6: identity enforcement is not idempotent: on either supported backend,
with a present auth context, if the first application of the identity filter
succeeds then a second application to the resulting search options raises,
rather than merging or duplicating the clause. -/
theorem identity_filter_second_application_raises :
    (∀ (ac : AuthContext) (kw kw1 : PineconeSearchKwargs),
        applyPineconeAuthorizationFilter (some ac) kw = .ok kw1 →
        ∃ e, applyPineconeAuthorizationFilter (some ac) kw1 = .error e) ∧
    (∀ (ac : AuthContext) (kw kw1 : QdrantSearchKwargs),
        applyQdrantAuthorizationFilter (some ac) kw = .ok kw1 →
        ∃ e, applyQdrantAuthorizationFilter (some ac) kw1 = .error e) := by
  constructor
  · intro ac kw kw1 h
    unfold applyPineconeAuthorizationFilter at h
    by_cases hc : (match kw.filter with
        | some f => dictMem f "authorized_identities"
        | none => false) = true
    · rw [if_pos hc] at h
      exact absurd h (by simp)
    · rw [if_neg hc] at h
      simp only [Except.ok.injEq] at h
      refine ⟨.valueError
        "authorized_identities already exists in search_kwargs filter", ?_⟩
      rw [← h]
      simp [applyPineconeAuthorizationFilter, dictMem_dictSet_self]
  · intro ac kw kw1 h
    obtain ⟨fo⟩ := kw
    cases fo with
    | none =>
        simp only [applyQdrantAuthorizationFilter, Except.ok.injEq] at h
        subst h
        exact qdrant_second_application_raises ac _ [] (by simp)
    | some fv =>
        cases fv with
        | dictFilter =>
            simp only [applyQdrantAuthorizationFilter] at h
            exact absurd h (by simp)
        | filter f =>
            simp only [applyQdrantAuthorizationFilter] at h
            split at h
            · split at h
              · exact absurd h (by simp)
              · simp only [Except.ok.injEq] at h
                subst h
                exact qdrant_second_application_raises ac _ _ rfl
            · simp only [Except.ok.injEq] at h
              subst h
              exact qdrant_second_application_raises ac _ [] (by simp)

/-- Witness for the non-idempotence theorem: starting from empty search
kwargs on each backend, the first application succeeds and the second
raises. -/
theorem identity_filter_second_application_raises_witness :
    applyPineconeAuthorizationFilter (some ⟨"u1", ["Finance"]⟩) ⟨none⟩ =
      .ok ⟨some [("authorized_identities",
        PineconeClause.inClause ["Finance"])]⟩ ∧
    (∃ e, applyPineconeAuthorizationFilter (some ⟨"u1", ["Finance"]⟩)
        ⟨some [("authorized_identities",
          PineconeClause.inClause ["Finance"])]⟩ = .error e) ∧
    applyQdrantAuthorizationFilter (some ⟨"u1", ["Finance"]⟩) ⟨none⟩ =
      .ok ⟨some (.filter ⟨some
        [identityEnforcementFilter ⟨"u1", ["Finance"]⟩], none⟩)⟩ ∧
    (∃ e, applyQdrantAuthorizationFilter (some ⟨"u1", ["Finance"]⟩)
        ⟨some (.filter ⟨some
          [identityEnforcementFilter ⟨"u1", ["Finance"]⟩], none⟩)⟩ =
      .error e) :=
  ⟨by decide,
   identity_filter_second_application_raises.1 ⟨"u1", ["Finance"]⟩ ⟨none⟩ _
     (by decide),
   by decide,
   identity_filter_second_application_raises.2 ⟨"u1", ["Finance"]⟩ ⟨none⟩ _
     (by decide)⟩

/-- C7 counterexample: an existing but malformed policy file makes
`get_policy_from_file` raise (the `json.load` error propagates out of the
fetch), rather than return absent. -/
theorem policy_file_malformed_raises_counterexample :
    get_policy_from_file "app1"
        (fun f => if f = "policy-app1.json"
          then some (.error "Expecting value") else none) =
      .error "Expecting value" := by
  decide

/-- C7 (amended): the file variant returns absent when the policy file is
missing but raises when the file is malformed (the error is only caught one
level up, in the refresh loop); the remote variant returns absent on network
failure and on any non-200 status. -/
theorem policy_fetch_failure_semantics :
    (∀ (app : String) (fs : FileSystem),
        fs (policyFileName app) = none →
        get_policy_from_file app fs = .ok none) ∧
    (∀ (app : String) (fs : FileSystem) (e : String),
        fs (policyFileName app) = some (.error e) →
        get_policy_from_file app fs = .error e) ∧
    get_policy_from_api none = .ok none ∧
    (∀ r : HttpResponse, r.status_code ≠ 200 →
        get_policy_from_api (some r) = .ok none) := by
  refine ⟨?_, ?_, rfl, ?_⟩
  · intro app fs h
    simp [get_policy_from_file, h]
  · intro app fs e h
    simp [get_policy_from_file, h]
  · intro r h
    simp [get_policy_from_api, make_request, h]

/-- Witness for the fetch-failure theorem: a missing file yields absent, a
malformed file raises, and a 500 response yields absent. -/
theorem policy_fetch_failure_semantics_witness :
    get_policy_from_file "app1" (fun _ => none) = .ok none ∧
    get_policy_from_file "app1"
        (fun _ => some (.error "bad json")) = .error "bad json" ∧
    ((500 : Nat) ≠ 200) ∧
    get_policy_from_api (some ⟨500, .error "server error"⟩) = .ok none :=
  ⟨policy_fetch_failure_semantics.1 "app1" (fun _ => none) rfl,
   policy_fetch_failure_semantics.2.1 "app1"
     (fun _ => some (.error "bad json")) "bad json" rfl,
   by decide,
   policy_fetch_failure_semantics.2.2.2 ⟨500, .error "server error"⟩
     (by decide)⟩

end PebbloSpec
